import Mathlib

/-!
# Verification of the `DateTimeSelect` widget (`src/datetime.rs`)

Shallow embedding of the field-cursor state machine and calendar
value-adjustment engine of the interactive date-time selection widget.

The Rust source stores the current value as a `chrono::NaiveDateTime`.
We embed it as a record of six integer fields.  The `chrono` operations
the source calls (`with_year`, `with_month`, `with_day`, `with_hour`,
`with_minute`, `with_second`, `checked_add_signed` / `checked_sub_signed`
with one-unit `Duration`s) are modelled below exactly as documented by
`chrono`: the `with_*` setters return `None` when the resulting date
would be invalid, and the one-unit duration arithmetic rolls over into
the adjacent fields.  A `.unwrap()` on a `None` in the source is a panic;
panics are modelled as `none` / `StepOut.fatal`.

Terminal I/O, theme rendering and line clearing are external
collaborators with no effect on the value logic; they are elided.
-/

set_option autoImplicit false

namespace DialoguerDateTime

/-- The `DateType` enum of the source: granularity of the selection. -/
inductive DateType where
  | Date
  | Time
  | DateTime
deriving DecidableEq, Repr

/-- Embedding of `chrono::NaiveDateTime`: a timezone-less date-time.
`chrono` packs year/month/day into a `NaiveDate` and the time of day into a
`NaiveTime`; we keep the six calendar fields directly.  (Sub-second
precision is never touched by the source and is omitted.) -/
structure NaiveDateTime where
  year : Int
  month : Nat
  day : Nat
  hour : Nat
  minute : Nat
  second : Nat
deriving DecidableEq, Repr

/-- Proleptic-Gregorian leap-year rule used by `chrono`. -/
def isLeapYear (y : Int) : Bool :=
  y % 4 == 0 && (y % 100 != 0 || y % 400 == 0)

/-- Number of days in a month (1–12) of a given year; 0 for an invalid
month index. -/
def daysInMonth (y : Int) (m : Nat) : Nat :=
  match m with
  | 1 => 31
  | 2 => if isLeapYear y then 29 else 28
  | 3 => 31
  | 4 => 30
  | 5 => 31
  | 6 => 30
  | 7 => 31
  | 8 => 31
  | 9 => 30
  | 10 => 31
  | 11 => 30
  | 12 => 31
  | _ => 0

/-- Validity of a calendar date, as enforced by `chrono::NaiveDate`. -/
def dateValid (y : Int) (m d : Nat) : Bool :=
  1 ≤ m && m ≤ 12 && 1 ≤ d && d ≤ daysInMonth y m

/-- A valid `NaiveDateTime`: the invariant `chrono` maintains for every
constructed value.  (`chrono` additionally bounds the year to ±262143;
the widget's claims concern years 0–9999, so that bound is not modelled.) -/
def Valid (v : NaiveDateTime) : Prop :=
  1 ≤ v.month ∧ v.month ≤ 12 ∧ 1 ≤ v.day ∧ v.day ≤ daysInMonth v.year v.month ∧
    v.hour ≤ 23 ∧ v.minute ≤ 59 ∧ v.second ≤ 59

instance (v : NaiveDateTime) : Decidable (Valid v) := by
  unfold Valid; infer_instance

/-- `chrono`'s `NaiveDateTime::with_year`: keeps month/day/time, returns
`None` when the resulting date would be invalid (Feb 29 to a non-leap
year). -/
def with_year (v : NaiveDateTime) (y : Int) : Option NaiveDateTime :=
  if dateValid y v.month v.day then some { v with year := y } else none

/-- `chrono`'s `with_month`: `None` when the month is out of 1–12 or the
day does not exist in the destination month. -/
def with_month (v : NaiveDateTime) (m : Nat) : Option NaiveDateTime :=
  if dateValid v.year m v.day then some { v with month := m } else none

/-- `chrono`'s `with_day`: `None` when the day does not exist in the
current month. -/
def with_day (v : NaiveDateTime) (d : Nat) : Option NaiveDateTime :=
  if dateValid v.year v.month d then some { v with day := d } else none

/-- `chrono`'s `with_hour`: `None` when the hour exceeds 23. -/
def with_hour (v : NaiveDateTime) (h : Nat) : Option NaiveDateTime :=
  if h ≤ 23 then some { v with hour := h } else none

/-- `chrono`'s `with_minute`: `None` when the minute exceeds 59. -/
def with_minute (v : NaiveDateTime) (mi : Nat) : Option NaiveDateTime :=
  if mi ≤ 59 then some { v with minute := mi } else none

/-- `chrono`'s `with_second`: `None` when the second exceeds 59. -/
def with_second (v : NaiveDateTime) (s : Nat) : Option NaiveDateTime :=
  if s ≤ 59 then some { v with second := s } else none

/-- `checked_add_signed(Duration::days(1))` on a valid value: same time of
day on the next calendar day.  Total in the modelled year range. -/
def succDay (v : NaiveDateTime) : NaiveDateTime :=
  if v.day + 1 ≤ daysInMonth v.year v.month then { v with day := v.day + 1 }
  else if v.month + 1 ≤ 12 then { v with month := v.month + 1, day := 1 }
  else { v with year := v.year + 1, month := 1, day := 1 }

/-- `checked_sub_signed(Duration::days(1))`: same time of day on the
previous calendar day. -/
def predDay (v : NaiveDateTime) : NaiveDateTime :=
  if 2 ≤ v.day then { v with day := v.day - 1 }
  else if 2 ≤ v.month then
    { v with month := v.month - 1, day := daysInMonth v.year (v.month - 1) }
  else { v with year := v.year - 1, month := 12, day := 31 }

/-- `checked_add_signed(Duration::hours(1))`: +3600 seconds, rolling over
into the day. -/
def succHour (v : NaiveDateTime) : NaiveDateTime :=
  if v.hour + 1 ≤ 23 then { v with hour := v.hour + 1 }
  else { succDay v with hour := 0 }

/-- `checked_sub_signed(Duration::hours(1))`. -/
def predHour (v : NaiveDateTime) : NaiveDateTime :=
  if 1 ≤ v.hour then { v with hour := v.hour - 1 }
  else { predDay v with hour := 23 }

/-- `checked_add_signed(Duration::minutes(1))`: +60 seconds, rolling over
into the hour. -/
def succMinute (v : NaiveDateTime) : NaiveDateTime :=
  if v.minute + 1 ≤ 59 then { v with minute := v.minute + 1 }
  else { succHour v with minute := 0 }

/-- `checked_sub_signed(Duration::minutes(1))`. -/
def predMinute (v : NaiveDateTime) : NaiveDateTime :=
  if 1 ≤ v.minute then { v with minute := v.minute - 1 }
  else { predHour v with minute := 59 }

/-- `checked_add_signed(Duration::seconds(1))`: rolling over into the
minute. -/
def succSecond (v : NaiveDateTime) : NaiveDateTime :=
  if v.second + 1 ≤ 59 then { v with second := v.second + 1 }
  else { succMinute v with second := 0 }

/-- `checked_sub_signed(Duration::seconds(1))`. -/
def predSecond (v : NaiveDateTime) : NaiveDateTime :=
  if 1 ≤ v.second then { v with second := v.second - 1 }
  else { predMinute v with second := 59 }

/-- Year increment of the Calendar Adjuster — source line 281/305:
`date_val.with_year(date_val.year() + 1).unwrap()`.  `none` models the
panic of the `unwrap`. -/
def increment_year (v : NaiveDateTime) : Option NaiveDateTime :=
  with_year v (v.year + 1)

/-- Year decrement — source line 338/362:
`date_val.with_year(date_val.year() - 1).unwrap()`. -/
def decrement_year (v : NaiveDateTime) : Option NaiveDateTime :=
  with_year v (v.year - 1)

/-- Month increment — source lines 282–292/306–316: wraps month 12 to
month 1 of the next year via `with_year(y+1).unwrap().with_month(1).unwrap()`,
otherwise `with_month(m+1).unwrap()`.  `none` models either panic. -/
def increment_month (v : NaiveDateTime) : Option NaiveDateTime :=
  if v.month + 1 > 12 then
    (with_year v (v.year + 1)).bind (fun w => with_month w 1)
  else with_month v (v.month + 1)

/-- Month decrement — source lines 339–349/363–373: wraps month 1 to
month 12 of the previous year. -/
def decrement_month (v : NaiveDateTime) : Option NaiveDateTime :=
  if v.month - 1 = 0 then
    (with_year v (v.year - 1)).bind (fun w => with_month w 12)
  else with_month v (v.month - 1)

/-- Mixed-radix key of a `NaiveDateTime`.  On valid values this encoding
is strictly order-preserving for `chrono`'s derived lexicographic order
on (year, month, day, hour, minute, second), so comparing keys is exactly
`chrono`'s `Ord` there (see `lexLe_iff_toKey_le`). -/
def toKey (v : NaiveDateTime) : Int :=
  ((((v.year * 13 + v.month) * 32 + v.day) * 24 + v.hour) * 60 + v.minute) * 60
    + v.second

/-- `chrono`'s derived `Ord` on `NaiveDateTime`: lexicographic on the date
(year, month, day) then the time of day (hour, minute, second). -/
def lexLe (a b : NaiveDateTime) : Prop :=
  a.year < b.year ∨ (a.year = b.year ∧
    (a.month < b.month ∨ (a.month = b.month ∧
      (a.day < b.day ∨ (a.day = b.day ∧
        (a.hour < b.hour ∨ (a.hour = b.hour ∧
          (a.minute < b.minute ∨ (a.minute = b.minute ∧
            a.second ≤ b.second)))))))))

instance (a b : NaiveDateTime) : Decidable (lexLe a b) := by
  unfold lexLe; infer_instance

/-- Rust `std::cmp::min` on `Ord` values: the first argument when equal. -/
def rmin (a b : NaiveDateTime) : NaiveDateTime :=
  if toKey a ≤ toKey b then a else b

/-- Rust `std::cmp::max` on `Ord` values: the second argument when equal. -/
def rmax (a b : NaiveDateTime) : NaiveDateTime :=
  if toKey b < toKey a then a else b

/-- The `DateTimeSelect` configuration struct.  The theme is a rendering
collaborator and is elided; `prompt`, `weekday`, `clear` and `show_match`
only affect rendering and are carried for completeness.  `default`, `min`
and `max` are stored already parsed: the rfc3339 parse in the setters can
only panic on a malformed string, which is outside the value logic. -/
structure DateTimeSelect where
  prompt : Option String
  default : Option NaiveDateTime
  weekday : Bool
  date_type : DateType
  min : NaiveDateTime
  max : NaiveDateTime
  clear : Bool
  show_match : Bool

/-- The configuration built by `DateTimeSelect::new` / `with_theme`. -/
def DateTimeSelect.init : DateTimeSelect :=
  { prompt := none
    default := none
    weekday := true
    date_type := DateType.DateTime
    min := ⟨0, 1, 1, 0, 0, 0⟩
    max := ⟨9999, 12, 31, 23, 59, 59⟩
    clear := true
    show_match := false }

/-- The Range Clamp — source `check_date`, line 105–107:
`min(max(val, self.min), self.max)`. -/
def check_date (c : DateTimeSelect) (val : NaiveDateTime) : NaiveDateTime :=
  rmin (rmax val c.min) c.max

/-- Rust's `{:02}` formatting of an unsigned field: zero-padded to width
two. -/
def pad2 (n : Nat) : String :=
  if n < 10 then "0" ++ toString n else toString n

/-- The final output string built in the `Key::Enter` arm, lines 245–267:
`Date` is `"{}-{:02}-{:02}"`, `Time` is `"{:02}:{:02}:{:02}"`, `DateTime`
is `"{}-{:02}-{:02} {:02}:{:02}:{:02}"` (space separator, no timezone
suffix). -/
def formatResult (dt : DateType) (v : NaiveDateTime) : String :=
  match dt with
  | DateType.Date =>
      toString v.year ++ "-" ++ pad2 v.month ++ "-" ++ pad2 v.day
  | DateType.Time =>
      pad2 v.hour ++ ":" ++ pad2 v.minute ++ ":" ++ pad2 v.second
  | DateType.DateTime =>
      toString v.year ++ "-" ++ pad2 v.month ++ "-" ++ pad2 v.day ++ " "
        ++ pad2 v.hour ++ ":" ++ pad2 v.minute ++ ":" ++ pad2 v.second

/-- The `console::Key` events distinguished by the source's `match`;
`other` stands for every remaining variant, all handled by the
`_ => {}` arm.  `Backspace` is the Erase event; the source has no arm for
it, so it also falls through to `_ => {}`. -/
inductive Key where
  | Enter
  | ArrowRight
  | ArrowLeft
  | ArrowUp
  | ArrowDown
  | Char (c : Char)
  | Backspace
  | other
deriving DecidableEq, Repr

/-- Mutable session state of the interactive loop: the current value
`date_val`, the cursor `pos` and the digit buffer `digits`. -/
structure SessState where
  val : NaiveDateTime
  pos : Nat
  digits : List Nat
deriving DecidableEq, Repr

/-- `max_pos`, lines 208–212: the last field index for the granularity. -/
def maxPos (dt : DateType) : Nat :=
  match dt with
  | DateType.Date => 2
  | DateType.Time => 2
  | DateType.DateTime => 5

/-- Outcome of one loop iteration: return with the final string
(`Key::Enter`), a panic (`fatal`), or the next loop state. -/
inductive StepOut where
  | done (s : String)
  | fatal
  | next (st : SessState)
deriving DecidableEq, Repr

/-- `date_val = self.check_date(date_val)` at the end of each iteration
(line 449). -/
def clampSt (c : DateTimeSelect) (st : SessState) : SessState :=
  { st with val := check_date c st.val }

/-- Dispatch of the Step-Up / Step-Down arms (`ArrowUp`/`'j'`,
`ArrowDown`/`'k'`, lines 279–391): the `(date_type, pos)` match.  `none`
models both the `unwrap` panics on year/month steps and the
"stepped out of bounds" panic arms. -/
def adjust (dt : DateType) (pos : Nat) (up : Bool) (v : NaiveDateTime) :
    Option NaiveDateTime :=
  match dt, pos, up with
  | DateType.Date, 0, true => increment_year v
  | DateType.Date, 1, true => increment_month v
  | DateType.Date, 2, true => some (succDay v)
  | DateType.Time, 0, true => some (succHour v)
  | DateType.Time, 1, true => some (succMinute v)
  | DateType.Time, 2, true => some (succSecond v)
  | DateType.DateTime, 0, true => increment_year v
  | DateType.DateTime, 1, true => increment_month v
  | DateType.DateTime, 2, true => some (succDay v)
  | DateType.DateTime, 3, true => some (succHour v)
  | DateType.DateTime, 4, true => some (succMinute v)
  | DateType.DateTime, 5, true => some (succSecond v)
  | DateType.Date, 0, false => decrement_year v
  | DateType.Date, 1, false => decrement_month v
  | DateType.Date, 2, false => some (predDay v)
  | DateType.Time, 0, false => some (predHour v)
  | DateType.Time, 1, false => some (predMinute v)
  | DateType.Time, 2, false => some (predSecond v)
  | DateType.DateTime, 0, false => decrement_year v
  | DateType.DateTime, 1, false => decrement_month v
  | DateType.DateTime, 2, false => some (predDay v)
  | DateType.DateTime, 3, false => some (predHour v)
  | DateType.DateTime, 4, false => some (predMinute v)
  | DateType.DateTime, 5, false => some (predSecond v)
  | _, _, _ => none

/-- Two-digit field application (lines 410–440): each in-range arm is
`with_*(num).unwrap_or(date_val)`; the out-of-bounds arms are the
"stepped out of bounds" panics, modelled as `none`. -/
def setField (dt : DateType) (pos : Nat) (v : NaiveDateTime) (num : Nat) :
    Option NaiveDateTime :=
  match dt, pos with
  | DateType.Date, 1 => some ((with_month v num).getD v)
  | DateType.Date, 2 => some ((with_day v num).getD v)
  | DateType.Time, 0 => some ((with_hour v num).getD v)
  | DateType.Time, 1 => some ((with_minute v num).getD v)
  | DateType.Time, 2 => some ((with_second v num).getD v)
  | DateType.DateTime, 1 => some ((with_month v num).getD v)
  | DateType.DateTime, 2 => some ((with_day v num).getD v)
  | DateType.DateTime, 3 => some ((with_hour v num).getD v)
  | DateType.DateTime, 4 => some ((with_minute v num).getD v)
  | DateType.DateTime, 5 => some ((with_second v num).getD v)
  | _, _ => none

/-- Whether the underlying `chrono` setter for the active (non-year)
field rejects `num` as out of range — the `None` that `unwrap_or`
absorbs in the corresponding arm of lines 410–440. -/
def fieldRejects (dt : DateType) (pos : Nat) (v : NaiveDateTime) (num : Nat) :
    Prop :=
  match dt, pos with
  | DateType.Date, 1 => with_month v num = none
  | DateType.Date, 2 => with_day v num = none
  | DateType.Time, 0 => with_hour v num = none
  | DateType.Time, 1 => with_minute v num = none
  | DateType.Time, 2 => with_second v num = none
  | DateType.DateTime, 1 => with_month v num = none
  | DateType.DateTime, 2 => with_day v num = none
  | DateType.DateTime, 3 => with_hour v num = none
  | DateType.DateTime, 4 => with_minute v num = none
  | DateType.DateTime, 5 => with_second v num = none
  | _, _ => False

/-- The `Key::Char(val)` digit branch (lines 393–446), after the
navigation characters 'l'/'h'/'j'/'k' have been matched away: push the
digit, complete a 4-digit year at position 0, complete any other field at
2 digits, otherwise keep accumulating; a non-digit clears the buffer.
The clamp of line 449 is applied to every non-returning outcome. -/
def stepDigit (c : DateTimeSelect) (st : SessState) (d : Nat) : StepOut :=
  let digits := st.digits ++ [d]
  if st.pos = 0 ∧ digits.length = 4 then
    let num := digits.getD 0 0 * 1000 + digits.getD 1 0 * 100 +
      digits.getD 2 0 * 10 + digits.getD 3 0
    match c.date_type with
    | DateType.Time => StepOut.fatal
    | _ =>
        match with_year st.val (Int.ofNat num) with
        | none => StepOut.fatal
        | some w => StepOut.next (clampSt c { st with val := w, digits := [] })
  else if digits.length = 2 ∧ (st.pos > 0 ∨ c.date_type = DateType.Time) then
    match setField c.date_type st.pos st.val
      (digits.getD 0 0 * 10 + digits.getD 1 0) with
    | none => StepOut.fatal
    | some w => StepOut.next (clampSt c { st with val := w, digits := [] })
  else StepOut.next (clampSt c { st with digits := digits })

/-- Step-Up / Step-Down transition: adjust, clear the buffer, clamp. -/
def stepAdjust (c : DateTimeSelect) (st : SessState) (up : Bool) : StepOut :=
  match adjust c.date_type st.pos up st.val with
  | none => StepOut.fatal
  | some w => StepOut.next (clampSt c { st with val := w, digits := [] })

/-- Move-Next: wrap forward (lines 270–273), clear the buffer, clamp. -/
def stepRight (c : DateTimeSelect) (st : SessState) : StepOut :=
  StepOut.next (clampSt c
    { st with pos := if st.pos = maxPos c.date_type then 0 else st.pos + 1,
              digits := [] })

/-- Move-Previous: wrap backward (lines 274–277), clear the buffer,
clamp. -/
def stepLeft (c : DateTimeSelect) (st : SessState) : StepOut :=
  StepOut.next (clampSt c
    { st with pos := if st.pos = 0 then maxPos c.date_type else st.pos - 1,
              digits := [] })

/-- One iteration of the interactive loop (the `match term.read_key()?`
of lines 235–448 followed by the re-clamp of line 449).  `Key::Enter`
returns the formatted value; the character arms 'l'/'h'/'j'/'k' alias the
arrows and are matched before the digit handling, exactly as the Rust
`match` orders its patterns; every unhandled key (`Backspace`, `other`)
is the `_ => {}` arm. -/
def step (c : DateTimeSelect) (st : SessState) (k : Key) : StepOut :=
  match k with
  | Key.Enter => StepOut.done (formatResult c.date_type st.val)
  | Key.ArrowRight => stepRight c st
  | Key.ArrowLeft => stepLeft c st
  | Key.ArrowUp => stepAdjust c st true
  | Key.ArrowDown => stepAdjust c st false
  | Key.Char ch =>
      if ch = 'l' then stepRight c st
      else if ch = 'h' then stepLeft c st
      else if ch = 'j' then stepAdjust c st true
      else if ch = 'k' then stepAdjust c st false
      else if ch.isDigit then stepDigit c st (ch.toNat - 48)
      else StepOut.next (clampSt c { st with digits := [] })
  | Key.Backspace => StepOut.next (clampSt c st)
  | Key.other => StepOut.next (clampSt c st)

/-- The state entering the first loop iteration (lines 191–213): the
starting value is the configured default, or "now" (today at 00:00:00
UTC, passed here as an explicit argument since it is read from the
clock), clamped by `check_date` before the first render; the cursor
starts at 0 with an empty digit buffer. -/
def initState (c : DateTimeSelect) (now : NaiveDateTime) : SessState :=
  { val := check_date c (c.default.getD now), pos := 0, digits := [] }

/-- Result of feeding a finite chunk of the input-event stream to the
loop: finished with the output string, panicked, or still awaiting
input. -/
inductive RunResult where
  | done (s : String)
  | fatal
  | pending (st : SessState)
deriving DecidableEq, Repr

/-- Run the loop over a list of input events. -/
def runEvents (c : DateTimeSelect) (st : SessState) :
    List Key → RunResult
  | [] => RunResult.pending st
  | k :: ks =>
      match step c st k with
      | StepOut.done s => RunResult.done s
      | StepOut.fatal => RunResult.fatal
      | StepOut.next st' => runEvents c st' ks

/-- `n`-fold composition of `increment_month` in the panic monad. -/
def iterMonths : Nat → NaiveDateTime → Option NaiveDateTime
  | 0, v => some v
  | n + 1, v => (increment_month v).bind (iterMonths n)

/-- A configuration whose max bound (2020-01-01) lies strictly below its
min bound (2022-01-01).  The builder setters perform no ordering check,
so this configuration is representable and `interact` runs with it. -/
def badBoundsCfg : DateTimeSelect :=
  { DateTimeSelect.init with
      date_type := DateType.Date
      min := ⟨2022, 1, 1, 0, 0, 0⟩
      max := ⟨2020, 1, 1, 0, 0, 0⟩
      default := some ⟨2021, 6, 15, 0, 0, 0⟩ }

/-! ## Helper lemmas -/

theorem daysInMonth_le_31 (y : Int) (m : Nat) : daysInMonth y m ≤ 31 := by
  unfold daysInMonth
  split <;> first | omega | (split <;> omega)

theorem daysInMonth_ge_28 (y : Int) {m : Nat} (h1 : 1 ≤ m) (h2 : m ≤ 12) :
    28 ≤ daysInMonth y m := by
  interval_cases m <;> simp only [daysInMonth] <;>
    first | omega | (split <;> omega)

/-- The mixed-radix key is injective on valid values. -/
theorem toKey_inj {a b : NaiveDateTime} (ha : Valid a) (hb : Valid b)
    (h : toKey a = toKey b) : a = b := by
  have hda := daysInMonth_le_31 a.year a.month
  have hdb := daysInMonth_le_31 b.year b.month
  obtain ⟨ha1, ha2, ha3, ha4, ha5, ha6, ha7⟩ := ha
  obtain ⟨hb1, hb2, hb3, hb4, hb5, hb6, hb7⟩ := hb
  unfold toKey at h
  cases a; cases b
  simp only [NaiveDateTime.mk.injEq]
  simp only at *
  omega

/-- On valid values, comparing keys is exactly `chrono`'s lexicographic
order on (year, month, day, hour, minute, second). -/
theorem lexLe_iff_toKey_le {a b : NaiveDateTime} (ha : Valid a)
    (hb : Valid b) : lexLe a b ↔ toKey a ≤ toKey b := by
  have hda := daysInMonth_le_31 a.year a.month
  have hdb := daysInMonth_le_31 b.year b.month
  obtain ⟨ha1, ha2, ha3, ha4, ha5, ha6, ha7⟩ := ha
  obtain ⟨hb1, hb2, hb3, hb4, hb5, hb6, hb7⟩ := hb
  unfold lexLe toKey
  omega

theorem toKey_rmin (a b : NaiveDateTime) :
    toKey (rmin a b) = min (toKey a) (toKey b) := by
  unfold rmin; split <;> omega

theorem toKey_rmax (a b : NaiveDateTime) :
    toKey (rmax a b) = max (toKey a) (toKey b) := by
  unfold rmax; split <;> omega

theorem toKey_check_date (c : DateTimeSelect) (v : NaiveDateTime) :
    toKey (check_date c v) =
      min (max (toKey v) (toKey c.min)) (toKey c.max) := by
  unfold check_date
  rw [toKey_rmin, toKey_rmax]

theorem rmin_valid {a b : NaiveDateTime} (ha : Valid a) (hb : Valid b) :
    Valid (rmin a b) := by
  unfold rmin; split <;> assumption

theorem rmax_valid {a b : NaiveDateTime} (ha : Valid a) (hb : Valid b) :
    Valid (rmax a b) := by
  unfold rmax; split <;> assumption

theorem check_date_valid {c : DateTimeSelect} {v : NaiveDateTime}
    (hmin : Valid c.min) (hmax : Valid c.max) (hv : Valid v) :
    Valid (check_date c v) :=
  rmin_valid (rmax_valid hv hmin) hmax

theorem valid_imp_dateValid {v : NaiveDateTime} (hv : Valid v) :
    dateValid v.year v.month v.day = true := by
  obtain ⟨h1, h2, h3, h4, _, _, _⟩ := hv
  unfold dateValid
  simp only [Bool.and_eq_true, decide_eq_true_eq]
  exact ⟨⟨⟨h1, h2⟩, h3⟩, h4⟩

/-- Every `StepOut.next` outcome of `step` was produced by `clampSt`,
i.e. its stored value is an output of the Range Clamp. -/
theorem step_next_clamped (c : DateTimeSelect) (st : SessState) (k : Key)
    (st' : SessState) (h : step c st k = StepOut.next st') :
    ∃ w, st'.val = check_date c w := by
  cases k <;>
    simp only [step, stepRight, stepLeft, stepAdjust, stepDigit] at h
  all_goals repeat' split at h
  all_goals
    first
    | (injection h with h2
       subst h2
       exact ⟨_, rfl⟩)
    | simp at h

/-- C9: the Range Clamp `check_date` is idempotent on valid values, and
monotonic for the (lexicographic) order on valid values. -/
theorem claim_C9 (c : DateTimeSelect) (hmin : Valid c.min)
    (hmax : Valid c.max) :
    (∀ v, Valid v → check_date c (check_date c v) = check_date c v) ∧
    (∀ v1 v2, Valid v1 → Valid v2 → lexLe v1 v2 →
      lexLe (check_date c v1) (check_date c v2)) := by
  constructor
  · intro v hv
    apply toKey_inj (check_date_valid hmin hmax (check_date_valid hmin hmax hv))
      (check_date_valid hmin hmax hv)
    rw [toKey_check_date, toKey_check_date]
    omega
  · intro v1 v2 h1 h2 hle
    rw [lexLe_iff_toKey_le h1 h2] at hle
    rw [lexLe_iff_toKey_le (check_date_valid hmin hmax h1)
      (check_date_valid hmin hmax h2)]
    rw [toKey_check_date, toKey_check_date]
    omega

/-- Witness for C9 at a concrete configuration and values. -/
theorem claim_C9_witness :
    Valid DateTimeSelect.init.min ∧ Valid DateTimeSelect.init.max ∧
      Valid (⟨2024, 3, 5, 1, 2, 3⟩ : NaiveDateTime) ∧
      check_date DateTimeSelect.init
          (check_date DateTimeSelect.init ⟨2024, 3, 5, 1, 2, 3⟩) =
        check_date DateTimeSelect.init ⟨2024, 3, 5, 1, 2, 3⟩ :=
  ⟨by decide, by decide, by decide,
    (claim_C9 DateTimeSelect.init (by decide) (by decide)).1
      ⟨2024, 3, 5, 1, 2, 3⟩ (by decide)⟩

/-- C3: with valid bounds `min ≤ max`, the Range Clamp equals
`max(min(v, upper), lower)`; it is applied to the starting value before
the first render, and every non-terminal loop transition stores a
clamp output. -/
theorem claim_C3 (c : DateTimeSelect) (hmin : Valid c.min)
    (hmax : Valid c.max) (hb : lexLe c.min c.max) :
    (∀ v, Valid v → check_date c v = rmax (rmin v c.max) c.min) ∧
    (∀ now, (initState c now).val = check_date c (c.default.getD now)) ∧
    (∀ st k st', step c st k = StepOut.next st' →
      ∃ w, st'.val = check_date c w) := by
  rw [lexLe_iff_toKey_le hmin hmax] at hb
  refine ⟨?_, fun _ => rfl, fun st k st' h => step_next_clamped c st k st' h⟩
  intro v hv
  apply toKey_inj (check_date_valid hmin hmax hv)
    (rmax_valid (rmin_valid hv hmax) hmin)
  rw [toKey_check_date, toKey_rmax, toKey_rmin]
  omega

/-- Witness for C3 at a concrete configuration: starting value
2000-01-01 below min 2020-02-20 snaps up to the minimum bound before the
first render. -/
theorem claim_C3_witness :
    Valid (⟨2020, 2, 20, 0, 0, 0⟩ : NaiveDateTime) ∧
      Valid (⟨2022, 11, 30, 0, 0, 0⟩ : NaiveDateTime) ∧
      lexLe ⟨2020, 2, 20, 0, 0, 0⟩ ⟨2022, 11, 30, 0, 0, 0⟩ ∧
      (initState
          { DateTimeSelect.init with
              date_type := DateType.Date
              min := ⟨2020, 2, 20, 0, 0, 0⟩
              max := ⟨2022, 11, 30, 0, 0, 0⟩
              default := some ⟨2000, 1, 1, 0, 0, 0⟩ }
          ⟨2024, 1, 1, 0, 0, 0⟩).val =
        check_date
          { DateTimeSelect.init with
              date_type := DateType.Date
              min := ⟨2020, 2, 20, 0, 0, 0⟩
              max := ⟨2022, 11, 30, 0, 0, 0⟩
              default := some ⟨2000, 1, 1, 0, 0, 0⟩ }
          ⟨2000, 1, 1, 0, 0, 0⟩ :=
  ⟨by decide, by decide, by decide,
    (claim_C3 _ (by decide) (by decide) (by decide)).2.1 ⟨2024, 1, 1, 0, 0, 0⟩⟩

theorem isLeapYear_iff {y : Int} :
    isLeapYear y = true ↔ (y % 4 = 0 ∧ (y % 100 ≠ 0 ∨ y % 400 = 0)) := by
  unfold isLeapYear
  simp only [Bool.and_eq_true, beq_iff_eq, Bool.or_eq_true, bne_iff_ne,
    ne_eq]

/-- The year after a leap year is never a leap year. -/
theorem isLeapYear_succ {y : Int} (h : isLeapYear y = true) :
    isLeapYear (y + 1) = false := by
  rw [isLeapYear_iff] at h
  rw [Bool.eq_false_iff, ne_eq, isLeapYear_iff]
  omega

/-- The year before a leap year is never a leap year. -/
theorem isLeapYear_pred {y : Int} (h : isLeapYear y = true) :
    isLeapYear (y - 1) = false := by
  rw [isLeapYear_iff] at h
  rw [Bool.eq_false_iff, ne_eq, isLeapYear_iff]
  omega

/-- A date other than February 29 stays valid when only the year
changes. -/
theorem dateValid_other_year {y : Int} (y' : Int) {m d : Nat}
    (h : dateValid y m d = true) (hne : ¬(m = 2 ∧ d = 29)) :
    dateValid y' m d = true := by
  unfold dateValid at *
  simp only [Bool.and_eq_true, decide_eq_true_eq] at *
  obtain ⟨⟨⟨h1, h2⟩, h3⟩, h4⟩ := h
  refine ⟨⟨⟨h1, h2⟩, h3⟩, ?_⟩
  interval_cases m <;>
    simp only [daysInMonth] at h4 ⊢ <;>
    first
    | omega
    | (split at h4 <;> split <;> omega)

/-- C1 counterexample: stepping the year of February 29, 2020 (in either
direction) hits the `unwrap` panic (`with_year` returns `None`), it does
not coerce the day to February 28. -/
theorem claim_C1_counterexample :
    increment_year ⟨2020, 2, 29, 0, 0, 0⟩ = none ∧
      decrement_year ⟨2020, 2, 29, 0, 0, 0⟩ = none := by
  decide

/-- C1 as amended: on February 29 both year steps are fatal (the
`with_year(..).unwrap()` panics, since the neighbouring years are never
leap years); on every other valid date `increment_year` returns a valid
value and `decrement_year` undoes it exactly. -/
theorem claim_C1_amended (v : NaiveDateTime) (hv : Valid v) :
    (v.month = 2 ∧ v.day = 29 →
      increment_year v = none ∧ decrement_year v = none) ∧
    (¬(v.month = 2 ∧ v.day = 29) →
      ∃ w, increment_year v = some w ∧ Valid w ∧
        decrement_year w = some v) := by
  have hdv := valid_imp_dateValid hv
  obtain ⟨h1, h2, h3, h4, h5, h6, h7⟩ := hv
  constructor
  · rintro ⟨hm, hd⟩
    have hleap : isLeapYear v.year = true := by
      rw [hm] at h4
      simp only [daysInMonth] at h4
      by_contra hc
      rw [Bool.not_eq_true] at hc
      rw [hc] at h4
      simp only [Bool.false_eq_true, if_false] at h4
      omega
    constructor
    · unfold increment_year with_year dateValid daysInMonth
      rw [hm, hd, isLeapYear_succ hleap]
      simp
    · unfold decrement_year with_year dateValid daysInMonth
      rw [hm, hd, isLeapYear_pred hleap]
      simp
  · intro hne
    have hup : dateValid (v.year + 1) v.month v.day = true :=
      dateValid_other_year (v.year + 1) hdv hne
    refine ⟨{ v with year := v.year + 1 }, ?_, ?_, ?_⟩
    · unfold increment_year with_year
      rw [hup]
      simp
    · unfold dateValid at hup
      simp only [Bool.and_eq_true, decide_eq_true_eq] at hup
      exact ⟨h1, h2, h3, hup.2, h5, h6, h7⟩
    · unfold decrement_year with_year
      simp only [Int.add_sub_cancel]
      rw [hdv]
      simp

/-- Witness for C1 as amended: March 15, 2024 round-trips, and
February 29, 2020 is fatal in both directions. -/
theorem claim_C1_amended_witness :
    Valid (⟨2024, 3, 15, 1, 2, 3⟩ : NaiveDateTime) ∧
      Valid (⟨2020, 2, 29, 0, 0, 0⟩ : NaiveDateTime) ∧
      (∃ w, increment_year ⟨2024, 3, 15, 1, 2, 3⟩ = some w ∧ Valid w ∧
        decrement_year w = some ⟨2024, 3, 15, 1, 2, 3⟩) ∧
      increment_year ⟨2020, 2, 29, 0, 0, 0⟩ = none :=
  ⟨by decide, by decide,
    (claim_C1_amended ⟨2024, 3, 15, 1, 2, 3⟩ (by decide)).2 (by decide),
    ((claim_C1_amended ⟨2020, 2, 29, 0, 0, 0⟩ (by decide)).1 (by decide)).1⟩

theorem dateValid_intro {y : Int} {m d : Nat} (h1 : 1 ≤ m) (h2 : m ≤ 12)
    (h3 : 1 ≤ d) (h4 : d ≤ daysInMonth y m) : dateValid y m d = true := by
  unfold dateValid
  simp only [Bool.and_eq_true, decide_eq_true_eq]
  exact ⟨⟨⟨h1, h2⟩, h3⟩, h4⟩

theorem with_month_some {v : NaiveDateTime} {m : Nat}
    (h : dateValid v.year m v.day = true) :
    with_month v m = some { v with month := m } := by
  unfold with_month
  rw [h]
  simp

theorem with_month_none {v : NaiveDateTime} {m : Nat}
    (h : daysInMonth v.year m < v.day) : with_month v m = none := by
  have hne : ¬dateValid v.year m v.day = true := by
    unfold dateValid
    simp only [Bool.and_eq_true, decide_eq_true_eq]
    omega
  unfold with_month
  rw [if_neg hne]

theorem with_year_some {v : NaiveDateTime} {y : Int}
    (h : dateValid y v.month v.day = true) :
    with_year v y = some { v with year := y } := by
  unfold with_year
  rw [h]
  simp

theorem valid_of_dateValid {v : NaiveDateTime} (hv : Valid v) {y' : Int}
    {m' : Nat} (h : dateValid y' m' v.day = true) :
    Valid { v with year := y', month := m' } := by
  obtain ⟨_, _, _, _, h5, h6, h7⟩ := hv
  unfold dateValid at h
  simp only [Bool.and_eq_true, decide_eq_true_eq] at h
  exact ⟨h.1.1.1, h.1.1.2, h.1.2, h.2, h5, h6, h7⟩

/-- C2 counterexample: the month steps do not coerce the day down to the
destination month's last day — January 31 stepped up (and March 31
stepped down) hit the `with_month(..).unwrap()` panic. -/
theorem claim_C2_counterexample :
    increment_month ⟨2021, 1, 31, 0, 0, 0⟩ = none ∧
      decrement_month ⟨2021, 3, 31, 0, 0, 0⟩ = none := by
  decide

/-- C2 as amended: the month steps wrap month 12→1 (1→12) with a year
step and preserve the day; when the source day exists in the destination
month the result is a valid value, and when the destination month is
shorter than the source day the step is fatal (the `None` of `with_month`
is unwrapped) instead of coercing the day. -/
theorem claim_C2_amended (v : NaiveDateTime) (hv : Valid v) :
    (v.month ≤ 11 →
      (v.day ≤ daysInMonth v.year (v.month + 1) →
        increment_month v = some { v with month := v.month + 1 } ∧
          Valid { v with month := v.month + 1 }) ∧
      (daysInMonth v.year (v.month + 1) < v.day →
        increment_month v = none)) ∧
    (v.month = 12 →
      increment_month v = some { v with year := v.year + 1, month := 1 } ∧
        Valid { v with year := v.year + 1, month := 1 }) ∧
    (2 ≤ v.month →
      (v.day ≤ daysInMonth v.year (v.month - 1) →
        decrement_month v = some { v with month := v.month - 1 } ∧
          Valid { v with month := v.month - 1 }) ∧
      (daysInMonth v.year (v.month - 1) < v.day →
        decrement_month v = none)) ∧
    (v.month = 1 →
      decrement_month v = some { v with year := v.year - 1, month := 12 } ∧
        Valid { v with year := v.year - 1, month := 12 }) := by
  obtain ⟨h1, h2, h3, h4, h5, h6, h7⟩ := hv
  have hv' : Valid v := ⟨h1, h2, h3, h4, h5, h6, h7⟩
  refine ⟨?_, ?_, ?_, ?_⟩
  · intro hm
    have hgt : ¬v.month + 1 > 12 := by omega
    constructor
    · intro hd
      have hok : dateValid v.year (v.month + 1) v.day = true :=
        dateValid_intro (by omega) (by omega) h3 hd
      unfold increment_month
      rw [if_neg hgt, with_month_some hok]
      exact ⟨rfl, valid_of_dateValid hv' hok⟩
    · intro hd
      unfold increment_month
      rw [if_neg hgt, with_month_none hd]
  · intro hm
    have hd31 : v.day ≤ 31 := le_trans h4 (daysInMonth_le_31 v.year v.month)
    have hy : dateValid (v.year + 1) v.month v.day = true := by
      rw [hm]
      exact dateValid_intro (by omega) (by omega) h3
        (by simp only [daysInMonth]; omega)
    have hgt : v.month + 1 > 12 := by omega
    have hok : dateValid (v.year + 1) 1 v.day = true :=
      dateValid_intro (by omega) (by omega) h3
        (by simp only [daysInMonth]; omega)
    unfold increment_month
    rw [if_pos hgt, with_year_some hy]
    simp only [Option.some_bind]
    rw [@with_month_some { v with year := v.year + 1 } 1 hok]
    refine ⟨rfl, ?_⟩
    exact valid_of_dateValid hv' hok
  · intro hm
    have hne : ¬v.month - 1 = 0 := by omega
    constructor
    · intro hd
      have hok : dateValid v.year (v.month - 1) v.day = true :=
        dateValid_intro (by omega) (by omega) h3 hd
      unfold decrement_month
      rw [if_neg hne, with_month_some hok]
      exact ⟨rfl, valid_of_dateValid hv' hok⟩
    · intro hd
      unfold decrement_month
      rw [if_neg hne, with_month_none hd]
  · intro hm
    have hd31 : v.day ≤ 31 := le_trans h4 (daysInMonth_le_31 v.year v.month)
    have hy : dateValid (v.year - 1) v.month v.day = true := by
      rw [hm]
      exact dateValid_intro (by omega) (by omega) h3
        (by simp only [daysInMonth]; omega)
    have heq : v.month - 1 = 0 := by omega
    have hok : dateValid (v.year - 1) 12 v.day = true :=
      dateValid_intro (by omega) (by omega) h3
        (by simp only [daysInMonth]; omega)
    unfold decrement_month
    rw [if_pos heq, with_year_some hy]
    simp only [Option.some_bind]
    rw [@with_month_some { v with year := v.year - 1 } 12 hok]
    exact ⟨rfl, valid_of_dateValid hv' hok⟩

/-- Witness for C2 as amended: April 30 steps up to May 30;
December 31, 2021 wraps to January 31, 2022; March 31 stepped down is
fatal. -/
theorem claim_C2_amended_witness :
    Valid (⟨2021, 4, 30, 0, 0, 0⟩ : NaiveDateTime) ∧
      increment_month ⟨2021, 4, 30, 0, 0, 0⟩ = some ⟨2021, 5, 30, 0, 0, 0⟩ ∧
      Valid (⟨2021, 12, 31, 0, 0, 0⟩ : NaiveDateTime) ∧
      increment_month ⟨2021, 12, 31, 0, 0, 0⟩ = some ⟨2022, 1, 31, 0, 0, 0⟩ ∧
      Valid (⟨2021, 3, 31, 0, 0, 0⟩ : NaiveDateTime) ∧
      decrement_month ⟨2021, 3, 31, 0, 0, 0⟩ = none :=
  ⟨by decide,
    ((claim_C2_amended ⟨2021, 4, 30, 0, 0, 0⟩ (by decide)).1 (by decide)).1
      (by decide) |>.1,
    by decide,
    ((claim_C2_amended ⟨2021, 12, 31, 0, 0, 0⟩ (by decide)).2.1 (by decide)).1,
    by decide,
    ((claim_C2_amended ⟨2021, 3, 31, 0, 0, 0⟩ (by decide)).2.2.1
      (by decide)).2 (by decide)⟩

/-- C8: for any valid value with day ≤ 28, twelve `increment_month`
steps equal one `increment_year` step: both succeed and yield the same
date one year later, with month, day and time of day unchanged
(including the wrap of month 12 into a year increment). -/
theorem increment_month_le28 {v : NaiveDateTime} (hv : Valid v)
    (hd : v.day ≤ 28) :
    ∃ w, increment_month v = some w ∧ Valid w ∧ w.day = v.day ∧
      w.hour = v.hour ∧ w.minute = v.minute ∧ w.second = v.second ∧
      ((v.month = 12 ∧ w.month = 1 ∧ w.year = v.year + 1) ∨
        (v.month ≤ 11 ∧ w.month = v.month + 1 ∧ w.year = v.year)) := by
  obtain ⟨h1, h2, h3, h4, h5, h6, h7⟩ := hv
  have hv' : Valid v := ⟨h1, h2, h3, h4, h5, h6, h7⟩
  by_cases hm : v.month = 12
  · have hy : dateValid (v.year + 1) v.month v.day = true := by
      rw [hm]
      exact dateValid_intro (by omega) (by omega) h3
        (by simp only [daysInMonth]; omega)
    have hok : dateValid (v.year + 1) 1 v.day = true :=
      dateValid_intro (by omega) (by omega) h3
        (by simp only [daysInMonth]; omega)
    refine ⟨{ v with year := v.year + 1, month := 1 }, ?_,
      valid_of_dateValid hv' hok, rfl, rfl, rfl, rfl,
      Or.inl ⟨hm, rfl, rfl⟩⟩
    unfold increment_month
    rw [if_pos (by omega), with_year_some hy]
    simp only [Option.some_bind]
    rw [@with_month_some { v with year := v.year + 1 } 1 hok]
  · have hok : dateValid v.year (v.month + 1) v.day = true :=
      dateValid_intro (by omega) (by omega) h3
        (le_trans hd (daysInMonth_ge_28 v.year (by omega) (by omega)))
    refine ⟨{ v with month := v.month + 1 }, ?_,
      @valid_of_dateValid v hv' v.year (v.month + 1) hok, rfl, rfl, rfl, rfl,
      Or.inr ⟨by omega, rfl, rfl⟩⟩
    unfold increment_month
    rw [if_neg (by omega), with_month_some hok]

/-- Closed form of iterated month increments for day ≤ 28: after `k`
steps the month has advanced by `k` modulo 12 and the year by the number
of wraps. -/
theorem iterMonths_closed (k : Nat) (v : NaiveDateTime) (hv : Valid v)
    (hd : v.day ≤ 28) :
    iterMonths k v = some { v with
      year := v.year + ((v.month - 1 + k) / 12 : Nat)
      month := (v.month - 1 + k) % 12 + 1 } := by
  induction k generalizing v with
  | zero =>
      obtain ⟨h1, h2, h3, h4, h5, h6, h7⟩ := hv
      have e1 : (v.month - 1) / 12 = 0 := by omega
      have e2 : (v.month - 1) % 12 + 1 = v.month := by omega
      simp only [iterMonths, add_zero, e1, e2, Nat.cast_zero]
  | succ k ih =>
      obtain ⟨w, hinc, hwval, hwd, hwh, hwmi, hws, hcase⟩ :=
        increment_month_le28 hv hd
      obtain ⟨h1, h2, h3, h4, h5, h6, h7⟩ := hv
      simp only [iterMonths]
      rw [hinc]
      simp only [Option.some_bind]
      rw [ih w hwval (hwd ▸ hd)]
      simp only [Option.some.injEq, NaiveDateTime.mk.injEq]
      refine ⟨?_, ?_, hwd, hwh, hwmi, hws⟩ <;>
        rcases hcase with ⟨ha, hb, hc⟩ | ⟨ha, hb, hc⟩ <;> omega

/-- C8: for any valid value with day ≤ 28, twelve `increment_month`
steps equal one `increment_year` step: both succeed and yield the same
date one year later, with month, day and time of day unchanged
(including the wrap of month 12 into a year increment). -/
theorem claim_C8 (v : NaiveDateTime) (hv : Valid v) (hd : v.day ≤ 28) :
    iterMonths 12 v = some { v with year := v.year + 1 } ∧
      increment_year v = some { v with year := v.year + 1 } := by
  obtain ⟨h1, h2, h3, h4, h5, h6, h7⟩ := hv
  have hv' : Valid v := ⟨h1, h2, h3, h4, h5, h6, h7⟩
  constructor
  · rw [iterMonths_closed 12 v hv' hd]
    have e1 : (v.month - 1 + 12) / 12 = 1 := by omega
    have e2 : (v.month - 1 + 12) % 12 + 1 = v.month := by omega
    simp only [e1, e2, Nat.cast_one]
  · unfold increment_year
    rw [with_year_some (dateValid_intro h1 h2 h3
      (le_trans hd (daysInMonth_ge_28 (v.year + 1) h1 h2)))]

/-- Witness for C8: May 28, 2021 01:02:03. -/
theorem claim_C8_witness :
    Valid (⟨2021, 5, 28, 1, 2, 3⟩ : NaiveDateTime) ∧
      (⟨2021, 5, 28, 1, 2, 3⟩ : NaiveDateTime).day ≤ 28 ∧
      iterMonths 12 ⟨2021, 5, 28, 1, 2, 3⟩ = some ⟨2022, 5, 28, 1, 2, 3⟩ ∧
      increment_year ⟨2021, 5, 28, 1, 2, 3⟩ = some ⟨2022, 5, 28, 1, 2, 3⟩ :=
  ⟨by decide, by decide,
    (claim_C8 ⟨2021, 5, 28, 1, 2, 3⟩ (by decide) (by decide)).1,
    (claim_C8 ⟨2021, 5, 28, 1, 2, 3⟩ (by decide) (by decide)).2⟩

/-- C4 counterexample: the Confirm output for `DateTime` at
2024-03-05 14:30:00 uses a space separator with no `T` and no trailing
`Z`, so it differs from the RFC-3339 form the claim states. -/
theorem claim_C4_counterexample :
    formatResult DateType.DateTime ⟨2024, 3, 5, 14, 30, 0⟩ =
        "2024-03-05 14:30:00" ∧
      "2024-03-05 14:30:00" ≠ "2024-03-05T14:30:00Z" := by
  exact ⟨rfl, by decide⟩

/-- C4 as amended: Confirm emits the Temporal Value formatted per
granularity — `Date` as `YYYY-MM-DD`, `Time` as `HH:MM:SS`, and
`DateTime` as `YYYY-MM-DD HH:MM:SS` with a space separator and no
timezone suffix. -/
theorem claim_C4_amended :
    (∀ c st, step c st Key.Enter =
      StepOut.done (formatResult c.date_type st.val)) ∧
    formatResult DateType.DateTime ⟨2024, 3, 5, 14, 30, 0⟩ =
      "2024-03-05 14:30:00" ∧
    formatResult DateType.Date ⟨2024, 3, 5, 14, 30, 0⟩ = "2024-03-05" ∧
    formatResult DateType.Time ⟨2024, 3, 5, 14, 30, 0⟩ = "14:30:00" :=
  ⟨fun _ _ => rfl, rfl, rfl, rfl⟩

/-- C5 counterexample: with one digit buffered, the Erase (Backspace)
event leaves the buffer still holding that digit — it is not removed,
because `Backspace` falls through to the `_ => {}` arm. -/
theorem claim_C5_counterexample :
    step DateTimeSelect.init ⟨⟨2024, 3, 5, 0, 0, 0⟩, 1, [1]⟩ Key.Backspace =
      StepOut.next ⟨⟨2024, 3, 5, 0, 0, 0⟩, 1, [1]⟩ := by
  decide

/-- C5 as amended: the Erase event is ignored entirely — it changes
neither the Digit Buffer nor the Temporal Value (for any state whose
value is already within the configured range, as every rendered state
is). -/
theorem claim_C5_amended (c : DateTimeSelect) (st : SessState)
    (h : check_date c st.val = st.val) :
    step c st Key.Backspace = StepOut.next st := by
  simp only [step, clampSt, h]

/-- Witness for C5 as amended. -/
theorem claim_C5_amended_witness :
    check_date DateTimeSelect.init ⟨2024, 3, 5, 0, 0, 0⟩ =
        ⟨2024, 3, 5, 0, 0, 0⟩ ∧
      step DateTimeSelect.init ⟨⟨2024, 3, 5, 0, 0, 0⟩, 2, [4, 2]⟩
          Key.Backspace =
        StepOut.next ⟨⟨2024, 3, 5, 0, 0, 0⟩, 2, [4, 2]⟩ :=
  ⟨by decide,
    claim_C5_amended DateTimeSelect.init ⟨⟨2024, 3, 5, 0, 0, 0⟩, 2, [4, 2]⟩
      (by decide)⟩

/-- C6 counterexample: a configuration with max (2020-01-01) strictly
below min (2022-01-01) is accepted, the interactive loop runs, and
Confirm returns normally — no configuration-time error occurs. -/
theorem claim_C6_counterexample :
    toKey badBoundsCfg.max < toKey badBoundsCfg.min ∧
      runEvents badBoundsCfg (initState badBoundsCfg ⟨2024, 1, 1, 0, 0, 0⟩)
        [Key.Enter] = RunResult.done "2020-01-01" := by
  exact ⟨by decide, rfl⟩

/-- C6 as amended: no `min ≤ max` validation exists.  A configuration
with max below min is accepted; the loop starts with the value forced to
the max bound by the Range Clamp, and interaction proceeds normally
(Confirm returns the formatted max bound). -/
theorem claim_C6_amended (c : DateTimeSelect) (now : NaiveDateTime)
    (h : toKey c.max < toKey c.min) :
    initState c now = ⟨c.max, 0, []⟩ ∧
      runEvents c (initState c now) [Key.Enter] =
        RunResult.done (formatResult c.date_type c.max) := by
  have hinit : initState c now = ⟨c.max, 0, []⟩ := by
    unfold initState check_date rmin rmax
    split <;> split <;> first | rfl | (exfalso; omega)
  refine ⟨hinit, ?_⟩
  rw [hinit]
  rfl

/-- Witness for C6 as amended. -/
theorem claim_C6_amended_witness :
    toKey badBoundsCfg.max < toKey badBoundsCfg.min ∧
      initState badBoundsCfg ⟨2024, 1, 1, 0, 0, 0⟩ =
        ⟨badBoundsCfg.max, 0, []⟩ :=
  ⟨by decide,
    (claim_C6_amended badBoundsCfg ⟨2024, 1, 1, 0, 0, 0⟩ (by decide)).1⟩

/-- C7: with one digit already buffered and the active field a non-year
field, a second digit completing an out-of-range value (the `chrono`
setter rejects it) leaves the Temporal Value unchanged and clears the
Digit Buffer — for month, day, hour, minute and second fields alike. -/
theorem claim_C7 (c : DateTimeSelect) (st : SessState) (ch : Char) (d0 : Nat)
    (hclamp : check_date c st.val = st.val)
    (hbuf : st.digits = [d0])
    (hch : ch.isDigit = true)
    (hrej : fieldRejects c.date_type st.pos st.val
      (d0 * 10 + (ch.toNat - 48))) :
    step c st (Key.Char ch) = StepOut.next { st with digits := [] } := by
  have hl : ¬ch = 'l' := by rintro rfl; exact absurd hch (by decide)
  have hh2 : ¬ch = 'h' := by rintro rfl; exact absurd hch (by decide)
  have hj : ¬ch = 'j' := by rintro rfl; exact absurd hch (by decide)
  have hk : ¬ch = 'k' := by rintro rfl; exact absurd hch (by decide)
  simp only [step, if_neg hl, if_neg hh2, if_neg hj, if_neg hk, if_pos hch,
    stepDigit, hbuf, List.cons_append, List.nil_append, List.length_cons,
    List.length_nil, List.getD_cons_zero, List.getD_cons_succ]
  unfold fieldRejects at hrej
  split at hrej
  all_goals
    first
    | exact hrej.elim
    | (rename_i hdt hpos
       rw [hdt, hpos]
       simp [setField, hrej, clampSt, hclamp])

/-- Witness for C7: month field active (position 1, DateTime), buffer
holds digit 1, typing '3' forms month 13 — rejected, value kept, buffer
cleared. -/
theorem claim_C7_witness :
    check_date DateTimeSelect.init ⟨2024, 3, 5, 0, 0, 0⟩ =
        ⟨2024, 3, 5, 0, 0, 0⟩ ∧
      fieldRejects DateTimeSelect.init.date_type 1 ⟨2024, 3, 5, 0, 0, 0⟩ 13 ∧
      step DateTimeSelect.init ⟨⟨2024, 3, 5, 0, 0, 0⟩, 1, [1]⟩
          (Key.Char '3') =
        StepOut.next ⟨⟨2024, 3, 5, 0, 0, 0⟩, 1, []⟩ :=
  ⟨by decide, rfl,
    claim_C7 DateTimeSelect.init ⟨⟨2024, 3, 5, 0, 0, 0⟩, 1, [1]⟩ '3' 1
      (by decide) rfl (by decide) rfl⟩

theorem setField_time_some (pos : Nat) (hpos : pos ≤ 2)
    (v : NaiveDateTime) (num : Nat) :
    ∃ w, setField DateType.Time pos v num = some w := by
  interval_cases pos <;> exact ⟨_, rfl⟩

theorem adjust_time_some (pos : Nat) (hpos : pos ≤ 2) (up : Bool)
    (v : NaiveDateTime) :
    ∃ w, adjust DateType.Time pos up v = some w := by
  interval_cases pos <;> cases up <;> exact ⟨_, rfl⟩

/-- In `Time` granularity, one loop step from a state with cursor ≤ 2
and at most one buffered digit never panics, and restores the same
invariant. -/
theorem time_step_no_fatal (c : DateTimeSelect)
    (hdt : c.date_type = DateType.Time) (st : SessState)
    (hpos : st.pos ≤ 2) (hlen : st.digits.length ≤ 1) (k : Key) :
    step c st k ≠ StepOut.fatal ∧
      ∀ st', step c st k = StepOut.next st' →
        st'.pos ≤ 2 ∧ st'.digits.length ≤ 1 := by
  have hmax : maxPos c.date_type = 2 := by rw [hdt]; rfl
  have hnav1 : (if st.pos = maxPos c.date_type then 0 else st.pos + 1) ≤ 2 := by
    rw [hmax]; split <;> omega
  have hnav2 : (if st.pos = 0 then maxPos c.date_type else st.pos - 1) ≤ 2 := by
    rw [hmax]; split <;> omega
  have hadj : ∀ up, stepAdjust c st up ≠ StepOut.fatal ∧
      ∀ st', stepAdjust c st up = StepOut.next st' →
        st'.pos ≤ 2 ∧ st'.digits.length ≤ 1 := by
    intro up
    obtain ⟨w, hw⟩ := adjust_time_some st.pos hpos up st.val
    unfold stepAdjust
    rw [hdt, hw]
    exact ⟨by simp, fun st' h => by
      injection h with h2
      rw [← h2]
      exact ⟨hpos, by simp [clampSt]⟩⟩
  have hdig : ∀ d, stepDigit c st d ≠ StepOut.fatal ∧
      ∀ st', stepDigit c st d = StepOut.next st' →
        st'.pos ≤ 2 ∧ st'.digits.length ≤ 1 := by
    intro d
    unfold stepDigit
    have hlen4 : ¬(st.pos = 0 ∧ (st.digits ++ [d]).length = 4) := by
      simp only [List.length_append, List.length_cons, List.length_nil]
      omega
    rw [if_neg hlen4]
    by_cases h2 : (st.digits ++ [d]).length = 2 ∧
        (st.pos > 0 ∨ c.date_type = DateType.Time)
    · rw [if_pos h2]
      obtain ⟨w, hw⟩ := setField_time_some st.pos hpos st.val
        ((st.digits ++ [d]).getD 0 0 * 10 + (st.digits ++ [d]).getD 1 0)
      rw [hdt, hw]
      exact ⟨by simp, fun st' h => by
        injection h with h3
        rw [← h3]
        exact ⟨hpos, by simp [clampSt]⟩⟩
    · rw [if_neg h2]
      refine ⟨by simp, fun st' h => ?_⟩
      injection h with h3
      rw [← h3]
      refine ⟨hpos, ?_⟩
      simp only [clampSt, List.length_append, List.length_cons,
        List.length_nil]
      rcases Nat.lt_or_ge st.digits.length 1 with hc | hc
      · omega
      · exfalso
        apply h2
        constructor
        · simp only [List.length_append, List.length_cons, List.length_nil]
          omega
        · exact Or.inr hdt
  cases k with
  | Enter => exact ⟨by simp [step], fun st' h => by simp [step] at h⟩
  | ArrowRight =>
      refine ⟨by simp [step, stepRight], fun st' h => ?_⟩
      simp only [step, stepRight] at h
      injection h with h2
      rw [← h2]
      exact ⟨hnav1, by simp [clampSt]⟩
  | ArrowLeft =>
      refine ⟨by simp [step, stepLeft], fun st' h => ?_⟩
      simp only [step, stepLeft] at h
      injection h with h2
      rw [← h2]
      exact ⟨hnav2, by simp [clampSt]⟩
  | ArrowUp => exact hadj true
  | ArrowDown => exact hadj false
  | Backspace =>
      refine ⟨by simp [step], fun st' h => ?_⟩
      simp only [step] at h
      injection h with h2
      rw [← h2]
      exact ⟨hpos, hlen⟩
  | other =>
      refine ⟨by simp [step], fun st' h => ?_⟩
      simp only [step] at h
      injection h with h2
      rw [← h2]
      exact ⟨hpos, hlen⟩
  | Char ch =>
      by_cases hl : ch = 'l'
      · refine ⟨by simp [step, hl, stepRight], fun st' h => ?_⟩
        simp only [step, hl, if_pos, stepRight] at h
        injection h with h2
        rw [← h2]
        exact ⟨hnav1, by simp [clampSt]⟩
      · by_cases hh2 : ch = 'h'
        · refine ⟨by simp [step, hl, hh2, stepLeft], fun st' h => ?_⟩
          simp only [step, hl, hh2, if_neg, if_pos, stepLeft] at h
          injection h with h2
          rw [← h2]
          exact ⟨hnav2, by simp [clampSt]⟩
        · by_cases hj : ch = 'j'
          · have := hadj true
            simpa [step, hl, hh2, hj] using this
          · by_cases hk : ch = 'k'
            · have := hadj false
              simpa [step, hl, hh2, hj, hk] using this
            · by_cases hd : ch.isDigit
              · have := hdig (ch.toNat - 48)
                simpa [step, hl, hh2, hj, hk, hd] using this
              · refine ⟨by simp [step, hl, hh2, hj, hk, hd],
                  fun st' h => ?_⟩
                simp only [step, hl, hh2, hj, hk, hd, if_false,
                  Bool.false_eq_true, StepOut.next.injEq] at h
                rw [← h]
                exact ⟨hpos, by simp [clampSt]⟩

/-- The loop invariant for `Time` granularity, over any event list. -/
theorem runEvents_time_inv (c : DateTimeSelect)
    (hdt : c.date_type = DateType.Time) (evs : List Key) :
    ∀ st, st.pos ≤ 2 → st.digits.length ≤ 1 →
      runEvents c st evs ≠ RunResult.fatal ∧
        ∀ st', runEvents c st evs = RunResult.pending st' →
          st'.pos ≤ 2 ∧ st'.digits.length ≤ 1 := by
  induction evs with
  | nil =>
      intro st h1 h2
      refine ⟨by simp [runEvents], fun st' h => ?_⟩
      simp only [runEvents] at h
      injection h with h3
      rw [← h3]
      exact ⟨h1, h2⟩
  | cons k ks ih =>
      intro st h1 h2
      obtain ⟨hnf, hnext⟩ := time_step_no_fatal c hdt st h1 h2 k
      simp only [runEvents]
      cases hstep : step c st k with
      | done s => simp
      | fatal => exact absurd hstep hnf
      | next st' =>
          obtain ⟨p1, p2⟩ := hnext st' hstep
          exact ih st' p1 p2

/-- C10: in pure `Time` granularity the loop can never panic — in
particular the 4-digit "Time not supported" branch is unreachable: the
buffer is consumed as soon as it holds two digits (also at cursor 0,
the hour field), so at every loop entry it holds at most one digit. -/
theorem claim_C10 (c : DateTimeSelect)
    (hdt : c.date_type = DateType.Time) (now : NaiveDateTime)
    (evs : List Key) :
    runEvents c (initState c now) evs ≠ RunResult.fatal ∧
      ∀ st, runEvents c (initState c now) evs = RunResult.pending st →
        st.digits.length ≤ 1 := by
  obtain ⟨h1, h2⟩ := runEvents_time_inv c hdt evs (initState c now)
    (by simp [initState]) (by simp [initState])
  exact ⟨h1, fun st h => (h2 st h).2⟩

/-- Witness for C10: typing four digits in a row at the hour field of a
`Time` selector does not hit the fatal branch. -/
theorem claim_C10_witness :
    runEvents { DateTimeSelect.init with date_type := DateType.Time }
        (initState { DateTimeSelect.init with date_type := DateType.Time }
          ⟨2024, 1, 1, 0, 0, 0⟩)
        [Key.Char '1', Key.Char '2', Key.Char '3', Key.Char '4'] ≠
      RunResult.fatal :=
  (claim_C10 { DateTimeSelect.init with date_type := DateType.Time } rfl
    ⟨2024, 1, 1, 0, 0, 0⟩
    [Key.Char '1', Key.Char '2', Key.Char '3', Key.Char '4']).1

end DialoguerDateTime
